import Mathlib

/-! Verification of the rdvp bootstrap program (go/cmd/rdvp/main.go).

Shallow embedding: the program's own helpers (parseBoolFromEnv, newLogger's
level selection, parseAddrs, the serve/genkey identity paths, the fatal-exit
classification in main) are translated directly from the source.  External
collaborators (strconv.ParseBool, net.SplitHostPort, go-multiaddr NewMultiaddr,
encoding/base64, the libp2p protobuf key codec, oklog/run) are modelled from
their documented, fixed contracts, as the spec directs (spec sections 1 and 6
treat them as external collaborators with fixed contracts). -/

namespace Rdvp

/-- Boolean of an Except result: true exactly on the ok constructor. -/
def exceptOk {e a : Type} : Except e a → Bool
  | .ok _ => true
  | .error _ => false

/-! Section: logger configuration (main.go lines 233-262). -/

/-- Zap log levels relevant to newLogger: it sets either DebugLevel or InfoLevel. -/
inductive LogLevel where
  | debug
  | info
deriving DecidableEq

/-- Model of the external Go strconv.ParseBool: accepts exactly the twelve
strings of its documented switch, errors on everything else. -/
def goParseBool (s : String) : Except Unit Bool :=
  if s = "1" ∨ s = "t" ∨ s = "T" ∨ s = "true" ∨ s = "TRUE" ∨ s = "True" then .ok true
  else if s = "0" ∨ s = "f" ∨ s = "F" ∨ s = "false" ∨ s = "FALSE" ∨ s = "False" then .ok false
  else .error ()

/-- The strings strconv.ParseBool parses as true. -/
def goBoolTrueStrings : List String := ["1", "t", "T", "true", "TRUE", "True"]

/-- The strings strconv.ParseBool parses as false. -/
def goBoolFalseStrings : List String := ["0", "f", "F", "false", "FALSE", "False"]

/-- parseBoolFromEnv (main.go 233-236): reads the environment value for key and
discards the ParseBool error, so the zero value false stands in on any failure.
The environment is passed as a function (os.Getenv yields "" for an absent
variable). -/
def parseBoolFromEnv (env : String → String) (key : String) : Bool :=
  match goParseBool (env key) with
  | .ok b => b
  | .error _ => false

/-- The level-selection logic of newLogger (main.go 238-262): three environment
switches plus the debug flag; debug level iff any is set. -/
def newLoggerLevel (env : String → String) (debug : Bool) : LogLevel :=
  let bertyDebug := parseBoolFromEnv env "BERTY_DEBUG" || debug
  let libp2pDebug := parseBoolFromEnv env "LIBP2P_DEBUG"
  let orbitdbDebug := parseBoolFromEnv env "ORBITDB_DEBUG"
  if bertyDebug || orbitdbDebug || libp2pDebug then .debug else .info

/-! Section: process supervision outcome (main.go 60-65, 137-141, 174-185). -/

/-- Errors that can reach main's process.Run() check: the bare
context-cancellation sentinel, the signal error the oklog/run signal watcher
reports for a delivered OS signal (library contract of run.SignalHandler), and
an errcode.TODO-wrapped inner error as produced by serve.Exec. -/
inductive RunErr where
  | contextCanceled
  | signalErr
  | wrapTODO (inner : RunErr)
deriving DecidableEq

/-- Modelled from the spec: run.Group.Run of the external oklog/run library
returns the result of the first actor to terminate (first-terminator-wins);
the supervisor then interrupts and waits for the rest.  The argument is the
list of actor results in termination order. -/
def runGroupFirst : List (Option RunErr) → Option RunErr
  | [] => none
  | r :: _ => r

/-- main.go 182-184: the process exits fatally (log.Fatal, non-zero exit) iff
process.Run() returned a non-nil error other than the bare context.Canceled
value (Go compares the two error interface values for identity). -/
def mainIsFatal (res : Option RunErr) : Bool :=
  match res with
  | none => false
  | some e => decide (e ≠ RunErr.contextCanceled)

/-- main.go 137-141, the tail of serve.Exec: it blocks on the shared scope,
and once the scope is cancelled ctx.Err() is non-nil, so serve returns
errcode.TODO.Wrap(ctx.Err()); only an uncancelled context would yield nil. -/
def serveCtxDoneResult (ctxErr : Option RunErr) : Option RunErr :=
  match ctxErr with
  | some e => some (RunErr.wrapTODO e)
  | none => none

/-! Theorems for claims C10, C9, C2. -/

/-- C10: parseBoolFromEnv is total and never fails: for every environment value
(including absent, i.e. "", empty, or unparsable ones) it returns the parsed
boolean for a valid boolean string and false in every other case.  Stated as:
the result is true exactly when the value is one of ParseBool's true-strings;
in particular each valid false-string yields its parsed value false, and every
malformed or absent value silently yields false rather than an error. -/
theorem parseBoolFromEnv_total_spec (env : String → String) (key : String) :
    parseBoolFromEnv env key = decide (env key ∈ goBoolTrueStrings) := by
  unfold parseBoolFromEnv goParseBool goBoolTrueStrings
  by_cases hA : env key = "1" ∨ env key = "t" ∨ env key = "T" ∨ env key = "true" ∨
      env key = "TRUE" ∨ env key = "True"
  · simp [hA, List.mem_cons]
  · by_cases hB : env key = "0" ∨ env key = "f" ∨ env key = "F" ∨ env key = "false" ∨
        env key = "FALSE" ∨ env key = "False"
    · simp [hA, hB, List.mem_cons]
    · simp [hA, hB, List.mem_cons]

/-- C9: the logger setup consults exactly the three independently-named boolean
environment switches BERTY_DEBUG (application), LIBP2P_DEBUG (peer transport)
and ORBITDB_DEBUG (storage replication): the level is debug iff at least one of
them is truthy or the debug flag is set; the level depends on no other
environment variable; and the three names are pairwise distinct. -/
theorem newLoggerLevel_debug_iff (env : String → String) (debug : Bool) :
    (newLoggerLevel env debug = LogLevel.debug ↔
      (parseBoolFromEnv env "BERTY_DEBUG" = true ∨ parseBoolFromEnv env "LIBP2P_DEBUG" = true ∨
        parseBoolFromEnv env "ORBITDB_DEBUG" = true ∨ debug = true)) ∧
    (∀ env2 : String → String,
      env2 "BERTY_DEBUG" = env "BERTY_DEBUG" →
      env2 "LIBP2P_DEBUG" = env "LIBP2P_DEBUG" →
      env2 "ORBITDB_DEBUG" = env "ORBITDB_DEBUG" →
      newLoggerLevel env2 debug = newLoggerLevel env debug) ∧
    ("BERTY_DEBUG" ≠ "LIBP2P_DEBUG" ∧ "BERTY_DEBUG" ≠ "ORBITDB_DEBUG" ∧
      "LIBP2P_DEBUG" ≠ "ORBITDB_DEBUG") := by
  refine ⟨?_, ?_, by decide⟩
  · unfold newLoggerLevel
    cases hb : parseBoolFromEnv env "BERTY_DEBUG" <;>
      cases hl : parseBoolFromEnv env "LIBP2P_DEBUG" <;>
        cases ho : parseBoolFromEnv env "ORBITDB_DEBUG" <;>
          cases debug <;> simp
  · intro env2 h1 h2 h3
    unfold newLoggerLevel parseBoolFromEnv
    rw [h1, h2, h3]

/-- Witness for C9 at a concrete environment: with every variable absent the
debug flag alone raises the level to debug. -/
theorem newLoggerLevel_debug_iff_witness :
    newLoggerLevel (fun _ => "") true = LogLevel.debug :=
  (newLoggerLevel_debug_iff (fun _ => "") true).1.mpr (Or.inr (Or.inr (Or.inr rfl)))

/-- C2 (code bug): the claim states the evident intent of main.go 182-184's
err != context.Canceled carve-out, but the code never realizes it.  When the
shared scope is cancelled by an external interrupt, the first termination is
either the signal watcher's signal error (run.SignalHandler's contract for a
delivered signal) or serve's errcode.TODO.Wrap(context.Canceled) from
main.go 139; both differ from the bare sentinel, so main.go 182-184
log.Fatal's them, a fatal non-zero exit.  The non-fatal classification holds
exactly for nil and the bare context.Canceled value, which no
first-terminating task of this program produces. -/
theorem runGroup_clean_interrupt_is_fatal :
    serveCtxDoneResult (some RunErr.contextCanceled) =
      some (RunErr.wrapTODO RunErr.contextCanceled) ∧
    mainIsFatal (runGroupFirst [serveCtxDoneResult (some RunErr.contextCanceled)]) = true ∧
    mainIsFatal (runGroupFirst [some RunErr.signalErr]) = true ∧
    (∀ res : Option RunErr,
      mainIsFatal res = false ↔ (res = none ∨ res = some RunErr.contextCanceled)) := by
  refine ⟨rfl, rfl, rfl, ?_⟩
  intro res
  match res with
  | none => simp [mainIsFatal]
  | some e => cases e <;> simp [mainIsFatal]

/-! Section: identity encoding (main.go 86-102 serve, 145-161 genkey).
Model of the external encoding/base64 StdEncoding and the libp2p protobuf
private-key codec (proto2 message with required varint Type = field 1 and
required bytes Data = field 2), both fixed external contracts per spec
section 6.  Bytes are Nats below 256. -/

/-- The standard base64 alphabet, in index order. -/
def b64Alphabet : List Char :=
  ['A', 'B', 'C', 'D', 'E', 'F', 'G', 'H', 'I', 'J', 'K', 'L', 'M',
   'N', 'O', 'P', 'Q', 'R', 'S', 'T', 'U', 'V', 'W', 'X', 'Y', 'Z',
   'a', 'b', 'c', 'd', 'e', 'f', 'g', 'h', 'i', 'j', 'k', 'l', 'm',
   'n', 'o', 'p', 'q', 'r', 's', 't', 'u', 'v', 'w', 'x', 'y', 'z',
   '0', '1', '2', '3', '4', '5', '6', '7', '8', '9', '+', '/']

/-- Character for a six-bit value. -/
def b64Char (n : Nat) : Char := b64Alphabet.getD n 'A'

/-- Six-bit value of a character, none if it is not in the alphabet. -/
def b64Index (c : Char) : Option Nat := b64Alphabet.findIdx? (fun a => a == c)

/-- base64 StdEncoding encoder: three bytes become four characters, a final
group of one or two bytes is padded with = signs. -/
def b64Encode : List Nat → List Char
  | [] => []
  | [a] => [b64Char (a / 4), b64Char (a % 4 * 16), '=', '=']
  | [a, b] => [b64Char (a / 4), b64Char (a % 4 * 16 + b / 16), b64Char (b % 16 * 4), '=']
  | a :: b :: c :: rest =>
      b64Char (a / 4) :: b64Char (a % 4 * 16 + b / 16) :: b64Char (b % 16 * 4 + c / 64) ::
        b64Char (c % 64) :: b64Encode rest

/-- base64 StdEncoding decoder: the input must be a sequence of four-character
groups, = padding allowed only at the very end. -/
def b64Decode : List Char → Option (List Nat)
  | [] => some []
  | c1 :: c2 :: c3 :: c4 :: rest =>
    if c3 = '=' ∧ c4 = '=' ∧ rest = [] then
      match b64Index c1, b64Index c2 with
      | some s1, some s2 => some [s1 * 4 + s2 / 16]
      | _, _ => none
    else if c4 = '=' ∧ rest = [] then
      match b64Index c1, b64Index c2, b64Index c3 with
      | some s1, some s2, some s3 => some [s1 * 4 + s2 / 16, s2 % 16 * 16 + s3 / 4]
      | _, _, _ => none
    else
      match b64Index c1, b64Index c2, b64Index c3, b64Index c4, b64Decode rest with
      | some s1, some s2, some s3, some s4, some tl =>
          some ((s1 * 4 + s2 / 16) :: (s2 % 16 * 16 + s3 / 4) :: (s3 % 4 * 64 + s4) :: tl)
      | _, _, _, _, _ => none
  | _ => none

theorem b64Index_b64Char : ∀ n, n < 64 → b64Index (b64Char n) = some n := by decide

theorem b64Char_ne_pad : ∀ n, n < 64 → ¬(b64Char n = '=') := by decide

theorem b64_roundtrip : ∀ bs : List Nat, (∀ x ∈ bs, x < 256) →
    b64Decode (b64Encode bs) = some bs := by
  intro bs
  induction bs using b64Encode.induct with
  | case1 => intro _; rfl
  | case2 a =>
    intro h
    have ha : a < 256 := h a (by simp)
    have h1 : a / 4 < 64 := by omega
    have h2 : a % 4 * 16 < 64 := by omega
    simp only [b64Encode, b64Decode]
    rw [if_pos (by simp), b64Index_b64Char _ h1, b64Index_b64Char _ h2]
    simp only [Option.some.injEq, List.cons.injEq, and_true]
    omega
  | case3 a b =>
    intro h
    have ha : a < 256 := h a (by simp)
    have hb : b < 256 := h b (by simp)
    have h1 : a / 4 < 64 := by omega
    have h2 : a % 4 * 16 + b / 16 < 64 := by omega
    have h3 : b % 16 * 4 < 64 := by omega
    simp only [b64Encode, b64Decode]
    rw [if_neg (fun hh => b64Char_ne_pad _ h3 hh.1), if_pos (by simp),
      b64Index_b64Char _ h1, b64Index_b64Char _ h2, b64Index_b64Char _ h3]
    simp only [Option.some.injEq, List.cons.injEq, and_true]
    omega
  | case4 a b c rest ih =>
    intro h
    have ha : a < 256 := h a (by simp)
    have hb : b < 256 := h b (by simp)
    have hc : c < 256 := h c (by simp)
    have h1 : a / 4 < 64 := by omega
    have h2 : a % 4 * 16 + b / 16 < 64 := by omega
    have h3 : b % 16 * 4 + c / 64 < 64 := by omega
    have h4 : c % 64 < 64 := by omega
    have hrest := ih (fun x hx => h x (by simp [hx]))
    simp only [b64Encode, b64Decode]
    rw [if_neg (fun hh => b64Char_ne_pad _ h3 hh.1),
      if_neg (fun hh => b64Char_ne_pad _ h4 hh.1),
      b64Index_b64Char _ h1, b64Index_b64Char _ h2, b64Index_b64Char _ h3,
      b64Index_b64Char _ h4, hrest]
    simp only [Option.some.injEq, List.cons.injEq, and_true]
    omega

/-- Protobuf varint encoder (little-endian seven-bit groups, continuation bit),
written with an explicit fuel bound so it is structural; fuel n suffices for n. -/
def varintEncodeAux : Nat → Nat → List Nat
  | 0, n => [n % 128]
  | fuel + 1, n => if n < 128 then [n] else (128 + n % 128) :: varintEncodeAux fuel (n / 128)

/-- Protobuf varint encoder. -/
def varintEncode (n : Nat) : List Nat := varintEncodeAux n n

/-- Protobuf varint decoder, returning the value and the remaining bytes. -/
def varintDecode : List Nat → Option (Nat × List Nat)
  | [] => none
  | b :: rest =>
    if b < 128 then some (b, rest)
    else
      match varintDecode rest with
      | some (m, rest2) => some (b - 128 + 128 * m, rest2)
      | none => none

theorem varintDecode_encodeAux : ∀ fuel n, n ≤ fuel → ∀ rest : List Nat,
    varintDecode (varintEncodeAux fuel n ++ rest) = some (n, rest) := by
  intro fuel
  induction fuel with
  | zero =>
    intro n hn rest
    have h0 : n = 0 := by omega
    subst h0
    simp [varintEncodeAux, varintDecode]
  | succ fuel ih =>
    intro n hn rest
    by_cases h : n < 128
    · simp [varintEncodeAux, h, varintDecode]
    · have hrec := ih (n / 128) (by omega) rest
      simp only [varintEncodeAux, if_neg h, List.cons_append, varintDecode]
      rw [if_neg (by omega), hrec]
      simp only [Option.some.injEq, Prod.mk.injEq, and_true]
      omega

theorem varintDecode_encode (n : Nat) (rest : List Nat) :
    varintDecode (varintEncode n ++ rest) = some (n, rest) :=
  varintDecode_encodeAux n n (Nat.le_refl n) rest

theorem varintEncodeAux_bytes : ∀ fuel n, ∀ x ∈ varintEncodeAux fuel n, x < 256 := by
  intro fuel
  induction fuel with
  | zero => intro n x hx; simp [varintEncodeAux] at hx; omega
  | succ fuel ih =>
    intro n x hx
    by_cases h : n < 128
    · simp [varintEncodeAux, h] at hx; omega
    · simp only [varintEncodeAux, if_neg h, List.mem_cons] at hx
      rcases hx with hx | hx
      · omega
      · exact ih (n / 128) x hx

/-- A libp2p private-key protobuf message: key type and raw key data. -/
structure PrivKeyPB where
  keyType : Nat
  data : List Nat
deriving DecidableEq

/-- Model of libp2p MarshalPrivateKey: canonical proto2 serialization, field 1
(tag byte 8) varint key type, field 2 (tag byte 18) length-delimited data. -/
def marshalPrivateKey (k : PrivKeyPB) : List Nat :=
  8 :: (varintEncode k.keyType ++ (18 :: (varintEncode k.data.length ++ k.data)))

/-- Model of libp2p UnmarshalPrivateKey: parses the canonical serialization,
none on any malformed input. -/
def unmarshalPrivateKey (bs : List Nat) : Option PrivKeyPB :=
  match bs with
  | 8 :: rest =>
    match varintDecode rest with
    | some (ty, rest2) =>
      match rest2 with
      | 18 :: rest3 =>
        match varintDecode rest3 with
        | some (len, rest4) => if rest4.length = len then some ⟨ty, rest4⟩ else none
        | none => none
      | _ => none
    | none => none
  | _ => none

theorem unmarshal_marshal (k : PrivKeyPB) :
    unmarshalPrivateKey (marshalPrivateKey k) = some k := by
  simp [marshalPrivateKey, unmarshalPrivateKey, varintDecode_encode]

theorem marshalPrivateKey_bytes (k : PrivKeyPB) (hk : ∀ x ∈ k.data, x < 256) :
    ∀ x ∈ marshalPrivateKey k, x < 256 := by
  intro x hx
  simp only [marshalPrivateKey, List.mem_cons, List.mem_append] at hx
  rcases hx with hx | hx | hx | hx | hx
  · omega
  · exact varintEncodeAux_bytes _ _ x hx
  · omega
  · exact varintEncodeAux_bytes _ _ x hx
  · exact hk x hx

/-- Error tags for the serve identity-loading path: serve.Exec wraps the base64
decode failure and the key-unmarshal failure separately (main.go 89-96); the
two wrapped underlying causes are distinct, modelled by distinct constructors. -/
inductive LoadErr where
  | decodeError
  | keyFormatError
deriving DecidableEq

/-- serialize, as performed by genkey Exec (main.go 153-158): marshal the
private key, then base64-encode the bytes into a string. -/
def serializeKey (k : PrivKeyPB) : String := String.mk (b64Encode (marshalPrivateKey k))

/-- load, as performed by serve.Exec (main.go 88-96): base64-decode the string,
then unmarshal the bytes into a private key, failing with the decode error or
the key-format error respectively. -/
def loadKey (s : String) : Except LoadErr PrivKeyPB :=
  match b64Decode s.toList with
  | none => .error .decodeError
  | some kBytes =>
    match unmarshalPrivateKey kBytes with
    | none => .error .keyFormatError
    | some priv => .ok priv

/-- C3: for every keypair k (with byte-valued data), loading the string
produced by serialize yields k back: load after serialize is the identity. -/
theorem loadKey_serializeKey (k : PrivKeyPB) (hk : ∀ x ∈ k.data, x < 256) :
    loadKey (serializeKey k) = .ok k := by
  have h1 : b64Decode (serializeKey k).toList = some (marshalPrivateKey k) :=
    b64_roundtrip _ (marshalPrivateKey_bytes k hk)
  simp only [loadKey, h1, unmarshal_marshal]

/-- Witness for C3 at a concrete keypair. -/
theorem loadKey_serializeKey_witness :
    loadKey (serializeKey ⟨0, [1, 2, 3]⟩) = .ok ⟨0, [1, 2, 3]⟩ :=
  loadKey_serializeKey ⟨0, [1, 2, 3]⟩ (by decide)

/-- C4: for every encoded key string, load fails with the decode tag exactly
when the string is not valid base64, fails with the key-format tag exactly when
the decoded bytes are not a well-formed private key, never panics (it is a
total function landing in this trichotomy), never returns a partially-valid
keypair (ok only carries a fully unmarshalled key), and the two failure tags
are distinct. -/
theorem loadKey_error_classification (s : String) :
    (b64Decode s.toList = none → loadKey s = .error .decodeError) ∧
    (∀ kBytes, b64Decode s.toList = some kBytes → unmarshalPrivateKey kBytes = none →
      loadKey s = .error .keyFormatError) ∧
    (∀ k, loadKey s = .ok k →
      ∃ kBytes, b64Decode s.toList = some kBytes ∧ unmarshalPrivateKey kBytes = some k) ∧
    LoadErr.decodeError ≠ LoadErr.keyFormatError := by
  refine ⟨?_, ?_, ?_, by decide⟩
  · intro h; simp only [loadKey, h]
  · intro kBytes h1 h2; simp only [loadKey, h1, h2]
  · intro k hk
    unfold loadKey at hk
    split at hk
    · exact Except.noConfusion hk
    · split at hk
      · exact Except.noConfusion hk
      · rename_i kBytes hdec scrut priv hun
        exact ⟨kBytes, hdec, by rw [hun, Except.ok.inj hk]⟩

/-- Witness for C4: a non-base64 string gets the decode tag, a valid base64
string whose bytes are not a key gets the key-format tag. -/
theorem loadKey_error_classification_witness :
    loadKey "!" = .error LoadErr.decodeError ∧
    loadKey "AAAA" = .error LoadErr.keyFormatError :=
  ⟨(loadKey_error_classification "!").1 rfl,
    (loadKey_error_classification "AAAA").2.1 [0, 0, 0] rfl rfl⟩

/-! Section: identity acquisition dispatch (main.go 87-102). -/

/-- Which identity path serve.Exec ran. -/
inductive IdentitySource where
  | loaded
  | generated
deriving DecidableEq

/-- Error of the serve identity step: a load failure or a generation failure. -/
inductive ServeKeyErr where
  | load (e : LoadErr)
  | keyGenError
deriving DecidableEq

/-- The identity-acquisition branch of serve.Exec (main.go 87-102): when the pk
flag is non-empty the encoded key is loaded, otherwise a fresh keypair is
generated; genResult stands for the outcome of the external
GenerateKeyPairWithReader call.  The returned tag records which path ran. -/
def acquireIdentity (pk : String) (genResult : Except Unit PrivKeyPB) :
    IdentitySource × Except ServeKeyErr PrivKeyPB :=
  if pk ≠ "" then (IdentitySource.loaded, (loadKey pk).mapError ServeKeyErr.load)
  else (IdentitySource.generated, genResult.mapError fun _ => ServeKeyErr.keyGenError)

/-- C7: exactly one identity-acquisition path runs per invocation: load is
attempted iff a non-empty encoded key was supplied, generate otherwise; the two
paths are mutually exclusive; and the result is a pure function of this
invocation's inputs alone (no caching: the code holds no state across calls,
so the embedding is a pure function). -/
theorem acquireIdentity_exclusive (pk : String) (genResult : Except Unit PrivKeyPB) :
    ((acquireIdentity pk genResult).1 = IdentitySource.loaded ↔ pk ≠ "") ∧
    ((acquireIdentity pk genResult).1 = IdentitySource.generated ↔ pk = "") ∧
    IdentitySource.loaded ≠ IdentitySource.generated ∧
    (pk ≠ "" → (acquireIdentity pk genResult).2 = (loadKey pk).mapError ServeKeyErr.load) ∧
    (pk = "" → (acquireIdentity pk genResult).2 =
      genResult.mapError fun _ => ServeKeyErr.keyGenError) := by
  by_cases h : pk = "" <;> simp [acquireIdentity, h]

/-- Witness for C7: a supplied key selects the load path, an empty flag selects
the generate path. -/
theorem acquireIdentity_exclusive_witness :
    (acquireIdentity "x" (.ok ⟨0, []⟩)).1 = IdentitySource.loaded ∧
    (acquireIdentity "" (.ok ⟨0, []⟩)).1 = IdentitySource.generated :=
  ⟨(acquireIdentity_exclusive "x" (.ok ⟨0, []⟩)).1.mpr (by decide),
    (acquireIdentity_exclusive "" (.ok ⟨0, []⟩)).2.1.mpr rfl⟩

/-! Section: address resolution (main.go 80, 209-231).
parseAddrs is translated directly from the source, parameterized over its two
external library calls (go-multiaddr NewMultiaddr and net.SplitHostPort); the
claims about its control flow hold for every behavior of those collaborators.
Concrete models of the two libraries, faithful to their documented grammar on
the protocols this program uses, instantiate the theorems on concrete inputs. -/

/-- Digit value of a character, none if it is not a decimal digit. -/
def digitVal (ch : Char) : Option Nat :=
  if '0' ≤ ch ∧ ch ≤ '9' then some (ch.toNat - 48) else none

/-- Accumulating decimal reader over characters. -/
def natOfCharsAux : List Char → Nat → Option Nat
  | [], acc => some acc
  | ch :: rest, acc =>
    match digitVal ch with
    | some d => natOfCharsAux rest (acc * 10 + d)
    | none => none

/-- Decimal number denoted by a character list; none if empty or not all digits. -/
def natOfChars : List Char → Option Nat
  | [] => none
  | cs => natOfCharsAux cs 0

/-- Splits a character list on a separator character; like Go strings.Split,
the result always has one more group than there are separators. -/
def splitOnChar (c : Char) : List Char → List (List Char)
  | [] => [[]]
  | x :: xs =>
    let r := splitOnChar c xs
    if x = c then [] :: r
    else
      match r with
      | [] => [[x]]
      | g :: gs => (x :: g) :: gs

/-- Removes trailing occurrences of a slash, like Go strings.TrimRight. -/
def trimRightSlashes (cs : List Char) : List Char :=
  (cs.reverse.dropWhile (fun x => x == '/')).reverse

/-- A parsed multiaddr segment, covering the protocols this program uses. -/
inductive MASeg where
  | ip4 (a b c d : Nat)
  | tcp (port : Nat)
  | udp (port : Nat)
  | quic
deriving DecidableEq

/-- Dotted-quad IPv4 literal: four decimal octets, each at most 255. -/
def parseIP4c (v : List Char) : Option (Nat × Nat × Nat × Nat) :=
  match splitOnChar '.' v with
  | [a, b, c, d] =>
    match natOfChars a, natOfChars b, natOfChars c, natOfChars d with
    | some x, some y, some z, some w =>
      if x ≤ 255 ∧ y ≤ 255 ∧ z ≤ 255 ∧ w ≤ 255 then some (x, y, z, w) else none
    | _, _, _, _ => none
  | _ => none

/-- Port value: decimal, at most 65535 (ParseUint base 10, 16 bits). -/
def portOfChars (v : List Char) : Option Nat :=
  match natOfChars v with
  | some n => if n ≤ 65535 then some n else none
  | none => none

/-- Segment loop of the multiaddr grammar: alternating protocol names and
values; ip4 takes a dotted quad, tcp and udp take a port, quic takes nothing. -/
def parseSegs : List (List Char) → Except String (List MASeg)
  | [] => .ok []
  | seg :: rest =>
    if seg = "ip4".toList then
      match rest with
      | [] => .error "unexpected end of multiaddr"
      | v :: rest2 =>
        match parseIP4c v with
        | some q => Except.map (fun l => MASeg.ip4 q.1 q.2.1 q.2.2.1 q.2.2.2 :: l) (parseSegs rest2)
        | none => .error ("failed to parse ip4 addr: " ++ String.mk v)
    else if seg = "tcp".toList then
      match rest with
      | [] => .error "unexpected end of multiaddr"
      | v :: rest2 =>
        match portOfChars v with
        | some p => Except.map (fun l => MASeg.tcp p :: l) (parseSegs rest2)
        | none => .error ("failed to parse tcp addr: " ++ String.mk v)
    else if seg = "udp".toList then
      match rest with
      | [] => .error "unexpected end of multiaddr"
      | v :: rest2 =>
        match portOfChars v with
        | some p => Except.map (fun l => MASeg.udp p :: l) (parseSegs rest2)
        | none => .error ("failed to parse udp addr: " ++ String.mk v)
    else if seg = "quic".toList then
      Except.map (fun l => MASeg.quic :: l) (parseSegs rest)
    else .error ("unknown protocol " ++ String.mk seg)

/-- Model of the external go-multiaddr NewMultiaddr (a fixed collaborator per
spec section 6), restricted to the protocols this program uses: trailing
slashes are consumed, the string must begin with a slash and be non-empty, and
the remaining slash-separated fields are parsed by the segment loop. -/
def nmModel (s : String) : Except String (List MASeg) :=
  match splitOnChar '/' (trimRightSlashes s.toList) with
  | [] => .error ("failed to parse multiaddr " ++ s)
  | first :: segs =>
    if first = [] then
      if segs = [] then .error ("failed to parse multiaddr " ++ s ++ ": empty multiaddr")
      else
        match parseSegs segs with
        | .ok l => .ok l
        | .error e => .error ("failed to parse multiaddr " ++ s ++ ": " ++ e)
    else .error ("failed to parse multiaddr " ++ s ++ ": must begin with /")

/-- Index of the last occurrence of a character. -/
def lastIdxOfChar (c : Char) : List Char → Option Nat
  | [] => none
  | x :: xs =>
    match lastIdxOfChar c xs with
    | some j => some (j + 1)
    | none => if x = c then some 0 else none

/-- Model of the external Go net.SplitHostPort (a fixed collaborator per spec
section 6): splits at the last colon, handles bracketed hosts, rejects missing
ports, stray colons and stray brackets; the port is not validated. -/
def shpModel (s : String) : Except String (String × String) :=
  let cs := s.toList
  match lastIdxOfChar ':' cs with
  | none => .error ("address " ++ s ++ ": missing port in address")
  | some i =>
    match cs with
    | '[' :: tail =>
      match cs.findIdx? (fun x => x == ']') with
      | none => .error ("address " ++ s ++ ": missing ']' in address")
      | some endi =>
        if endi + 1 = cs.length then .error ("address " ++ s ++ ": missing port in address")
        else if endi + 1 = i then
          if (cs.drop 1).any (fun x => x == '[') then
            .error ("address " ++ s ++ ": unexpected '[' in address")
          else if (cs.drop (endi + 1)).any (fun x => x == ']') then
            .error ("address " ++ s ++ ": unexpected ']' in address")
          else .ok (String.mk (tail.take (endi - 1)), String.mk (cs.drop (i + 1)))
        else
          match cs.get? (endi + 1) with
          | some ':' => .error ("address " ++ s ++ ": too many colons in address")
          | _ => .error ("address " ++ s ++ ": missing port in address")
    | _ =>
      let host := cs.take i
      if host.any (fun x => x == ':') then .error ("address " ++ s ++ ": too many colons in address")
      else if cs.any (fun x => x == '[') then
        .error ("address " ++ s ++ ": unexpected '[' in address")
      else if cs.any (fun x => x == ']') then
        .error ("address " ++ s ++ ": unexpected ']' in address")
      else .ok (String.mk host, String.mk (cs.drop (i + 1)))

/-- The fallback rewrite of parseAddrs (main.go 221-225): an empty host becomes
127.0.0.1 and the pair is rendered as a TCP-over-IPv4 multiaddr string. -/
def rewriteHostPort (hp : String × String) : String :=
  "/ip4/" ++ (if hp.1 = "" then "127.0.0.1" else hp.1) ++ "/tcp/" ++ hp.2 ++ "/"

/-- The loop of parseAddrs (main.go 209-231), translated statement by
statement, parameterized over the two external calls.  It returns the
preallocated result slice (entries still nil are none) together with the final
value of the named error return: the first direct-parse error causes an early
return when SplitHostPort also fails; a failed fallback re-parse sets the
error but the loop continues, so a later iteration overwrites it. -/
def parseAddrsLoop {MA : Type} (nm : String → Except String MA)
    (shp : String → Except String (String × String)) : List String → List (Option MA) × Option String
  | [] => ([], none)
  | addr :: rest =>
    match nm addr with
    | .ok m =>
      let r := parseAddrsLoop nm shp rest
      (some m :: r.1, r.2)
    | .error e1 =>
      match shp addr with
      | .error _ => (none :: rest.map (fun _ => (none : Option MA)), some e1)
      | .ok hp =>
        match nm (rewriteHostPort hp) with
        | .ok m =>
          let r := parseAddrsLoop nm shp rest
          (some m :: r.1, r.2)
        | .error e2 =>
          let r := parseAddrsLoop nm shp rest
          (none :: r.1, if rest.isEmpty then some e2 else r.2)

/-- parseAddrs as used by its caller (main.go 81-84): the Go convention
collapses the pair to the error when the error return is non-nil, and to the
slice otherwise. -/
def parseAddrs {MA : Type} (nm : String → Except String MA)
    (shp : String → Except String (String × String)) (addrs : List String) :
    Except String (List (Option MA)) :=
  match (parseAddrsLoop nm shp addrs).2 with
  | some e => .error e
  | none => .ok (parseAddrsLoop nm shp addrs).1

/-- Per-element summary of the resolution parseAddrs performs: direct parse,
else the fallback rewrite's parse when SplitHostPort succeeds, else nothing. -/
def resolveOne {MA : Type} (nm : String → Except String MA)
    (shp : String → Except String (String × String)) (addr : String) : Option MA :=
  match nm addr with
  | .ok m => some m
  | .error _ =>
    match shp addr with
    | .ok hp => (nm (rewriteHostPort hp)).toOption
    | .error _ => none

/-- An address string the resolver can handle: either a well-formed structured
multiaddr, or a host-port pair whose rewritten form parses. -/
def WellFormedAddr {MA : Type} (nm : String → Except String MA)
    (shp : String → Except String (String × String)) (addr : String) : Prop :=
  (∃ m, nm addr = .ok m) ∨
    (∃ hp, shp addr = .ok hp ∧ ∃ m, nm (rewriteHostPort hp) = .ok m)

theorem parseAddrsLoop_err_first_malformed {MA : Type} (nm : String → Except String MA)
    (shp : String → Except String (String × String)) (a e : String) (post : List String) :
    ∀ pre : List String, (∀ s ∈ pre, exceptOk (nm s) = true ∨ exceptOk (shp s) = true) →
    nm a = .error e → exceptOk (shp a) = false →
    (parseAddrsLoop nm shp (pre ++ a :: post)).2 = some e := by
  intro pre
  induction pre with
  | nil =>
    intro _ ha hs
    cases hsp : shp a with
    | ok v => rw [hsp] at hs; simp [exceptOk] at hs
    | error se => simp [parseAddrsLoop, ha, hsp]
  | cons s pre ih =>
    intro hpre ha hs
    have hhead := hpre s (by simp)
    have ihh := ih (fun x hx => hpre x (by simp [hx])) ha hs
    cases hnm : nm s with
    | ok m => simp [parseAddrsLoop, hnm, ihh]
    | error e1 =>
      cases hsp : shp s with
      | error se =>
        rw [hnm, hsp] at hhead
        simp [exceptOk] at hhead
      | ok hp =>
        cases hnm2 : nm (rewriteHostPort hp) with
        | ok m => simp [parseAddrsLoop, hnm, hsp, hnm2, ihh]
        | error e2 =>
          have hne : (pre ++ a :: post).isEmpty = false := by cases pre <;> simp
          simp [parseAddrsLoop, hnm, hsp, hnm2, hne, ihh]

/-- C1: for every input address list containing at least one malformed element
(direct parse fails and the host-port fallback split also fails), parseAddrs
returns an error and no resolved list, whatever the position of the malformed
element and whatever follows it.  The error returned is exactly the structured
parser's error for that offending element (which names the input and the
underlying cause, per the library contract); elements before it may be
anything the loop passes over (direct parse or split succeeds). -/
theorem parseAddrs_malformed_errors {MA : Type} (nm : String → Except String MA)
    (shp : String → Except String (String × String))
    (pre post : List String) (a e : String)
    (hpre : ∀ s ∈ pre, exceptOk (nm s) = true ∨ exceptOk (shp s) = true)
    (ha : nm a = .error e) (hs : exceptOk (shp a) = false) :
    parseAddrs nm shp (pre ++ a :: post) = .error e := by
  have h := parseAddrsLoop_err_first_malformed nm shp a e post pre hpre ha hs
  simp [parseAddrs, h]

/-- Witness for C1: a malformed middle element ("garbage" neither parses nor
splits) fails the whole call even though its neighbors are valid. -/
theorem parseAddrs_malformed_errors_witness :
    parseAddrs nmModel shpModel ["/ip4/0.0.0.0/tcp/4040", "garbage", "/ip4/1.2.3.4/tcp/80"] =
      .error "failed to parse multiaddr garbage: must begin with /" :=
  parseAddrs_malformed_errors nmModel shpModel ["/ip4/0.0.0.0/tcp/4040"]
    ["/ip4/1.2.3.4/tcp/80"] "garbage" "failed to parse multiaddr garbage: must begin with /"
    (by
      intro s hmem
      rw [List.mem_singleton] at hmem
      subst hmem
      exact Or.inl rfl)
    rfl rfl

theorem parseAddrsLoop_wf {MA : Type} (nm : String → Except String MA)
    (shp : String → Except String (String × String)) :
    ∀ addrs : List String, (∀ s ∈ addrs, WellFormedAddr nm shp s) →
    parseAddrsLoop nm shp addrs = (addrs.map (resolveOne nm shp), none) := by
  intro addrs
  induction addrs with
  | nil => intro _; rfl
  | cons a rest ih =>
    intro hall
    have hha := hall a (by simp)
    have ihh := ih (fun x hx => hall x (by simp [hx]))
    cases hnm : nm a with
    | ok m => simp [parseAddrsLoop, resolveOne, hnm, ihh]
    | error e1 =>
      rcases hha with ⟨m, hm⟩ | ⟨hp, hsp, m, hre⟩
      · rw [hnm] at hm; exact Except.noConfusion hm
      · simp [parseAddrsLoop, resolveOne, hnm, hsp, hre, ihh, Except.toOption]

/-- C5: for every address list whose elements are each either a well-formed
structured multiaddr or a host-port pair recoverable by the fallback,
parseAddrs succeeds with no error, and the result is the input list mapped
element by element in order (hence of the same length), with every element
resolved. -/
theorem parseAddrs_wellformed_ok {MA : Type} (nm : String → Except String MA)
    (shp : String → Except String (String × String)) (addrs : List String)
    (hall : ∀ s ∈ addrs, WellFormedAddr nm shp s) :
    parseAddrs nm shp addrs = .ok (addrs.map (resolveOne nm shp)) ∧
    (addrs.map (resolveOne nm shp)).length = addrs.length ∧
    ∀ s ∈ addrs, (resolveOne nm shp s).isSome = true := by
  have h := parseAddrsLoop_wf nm shp addrs hall
  refine ⟨by simp [parseAddrs, h], by simp, ?_⟩
  intro s hsmem
  rcases hall s hsmem with ⟨m, hm⟩ | ⟨hp, hsp, m, hre⟩
  · simp [resolveOne, hm]
  · cases hnm : nm s with
    | ok mm => simp [resolveOne, hnm]
    | error e1 => simp [resolveOne, hnm, hsp, hre, Except.toOption]

/-- Witness for C5: a structured address and a bare port pair both resolve, in
order, with the empty host defaulted to loopback. -/
theorem parseAddrs_wellformed_ok_witness :
    parseAddrs nmModel shpModel ["/ip4/0.0.0.0/tcp/4040", ":9999"] =
      .ok [some [MASeg.ip4 0 0 0 0, MASeg.tcp 4040],
        some [MASeg.ip4 127 0 0 1, MASeg.tcp 9999]] := by
  have h := parseAddrs_wellformed_ok nmModel shpModel ["/ip4/0.0.0.0/tcp/4040", ":9999"] (by
    intro s hmem
    rw [List.mem_cons, List.mem_singleton] at hmem
    rcases hmem with h1 | h2
    · subst h1
      exact Or.inl ⟨[MASeg.ip4 0 0 0 0, MASeg.tcp 4040], rfl⟩
    · subst h2
      exact Or.inr ⟨("", "9999"), rfl, [MASeg.ip4 127 0 0 1, MASeg.tcp 9999], rfl⟩)
  rw [h.1]
  rfl

theorem parseAddrsLoop_get_fallback {MA : Type} (nm : String → Except String MA)
    (shp : String → Except String (String × String)) (a : String) (hp : String × String)
    (m : MA) (e : String)
    (ha : nm a = .error e) (hsp : shp a = .ok hp) (hre : nm (rewriteHostPort hp) = .ok m) :
    ∀ (pre post : List String),
      (parseAddrsLoop nm shp (pre ++ a :: post)).2 = none →
      (parseAddrsLoop nm shp (pre ++ a :: post)).1.get? pre.length = some (some m) := by
  intro pre
  induction pre with
  | nil =>
    intro post _
    simp [parseAddrsLoop, ha, hsp, hre]
  | cons s pre ih =>
    intro post hnone
    cases hnm : nm s with
    | ok mm =>
      simp only [List.cons_append, parseAddrsLoop, hnm] at hnone ⊢
      simpa using ih post hnone
    | error e1 =>
      cases hsps : shp s with
      | error se =>
        simp [List.cons_append, parseAddrsLoop, hnm, hsps] at hnone
      | ok hps =>
        cases hnm2 : nm (rewriteHostPort hps) with
        | ok mm =>
          simp only [List.cons_append, parseAddrsLoop, hnm, hsps, hnm2] at hnone ⊢
          simpa using ih post hnone
        | error e2 =>
          have hne : (pre ++ a :: post).isEmpty = false := by cases pre <;> simp
          simp only [List.cons_append, parseAddrsLoop, hnm, hsps, hnm2, List.append_eq, hne,
            Bool.false_eq_true, if_false] at hnone ⊢
          simpa using ih post hnone

/-- C6 (amended): for every input string whose direct structured parse fails
but which splits as a host-port pair, the resolver substitutes 127.0.0.1 for
an empty host and re-renders the pair as /ip4/host/tcp/port/ before parsing
again; when that second parse succeeds and the overall call succeeds, the
result at that input's position is exactly the parsed rewritten structured
address.  (As stated, the claim fails when the re-parse fails, e.g. a
non-numeric host such as localhost: see the counterexample.) -/
theorem parseAddrs_fallback_element {MA : Type} (nm : String → Except String MA)
    (shp : String → Except String (String × String)) (pre post : List String) (a : String)
    (hp : String × String) (m : MA) (e : String) (ms : List (Option MA))
    (ha : nm a = .error e) (hsp : shp a = .ok hp) (hre : nm (rewriteHostPort hp) = .ok m)
    (hok : parseAddrs nm shp (pre ++ a :: post) = .ok ms) :
    ms.get? pre.length = some (some m) := by
  unfold parseAddrs at hok
  cases h2 : (parseAddrsLoop nm shp (pre ++ a :: post)).2 with
  | some er =>
    rw [h2] at hok
    exact Except.noConfusion hok
  | none =>
    rw [h2] at hok
    have hms : (parseAddrsLoop nm shp (pre ++ a :: post)).1 = ms := Except.ok.inj hok
    rw [← hms]
    exact parseAddrsLoop_get_fallback nm shp a hp m e ha hsp hre pre post h2

/-- Witness for C6 (amended): ":4242" is rewritten to /ip4/127.0.0.1/tcp/4242/
and that parsed address is the element's result. -/
theorem parseAddrs_fallback_element_witness :
    parseAddrs nmModel shpModel [":4242"] =
      .ok [some [MASeg.ip4 127 0 0 1, MASeg.tcp 4242]] ∧
    ([some [MASeg.ip4 127 0 0 1, MASeg.tcp 4242]] :
        List (Option (List MASeg))).get? 0 = some (some [MASeg.ip4 127 0 0 1, MASeg.tcp 4242]) :=
  ⟨rfl,
    parseAddrs_fallback_element nmModel shpModel [] [] ":4242" ("", "4242")
      [MASeg.ip4 127 0 0 1, MASeg.tcp 4242]
      "failed to parse multiaddr :4242: must begin with /"
      [some [MASeg.ip4 127 0 0 1, MASeg.tcp 4242]] rfl rfl rfl rfl⟩

/-- Counterexample to C6 as stated: for the input "localhost:9999" the direct
parse fails and the split succeeds, yet the result is not the rewritten
structured address: the rewritten string /ip4/localhost/tcp/9999/ itself fails
to parse (localhost is not an IPv4 literal), and the whole call errors. -/
theorem parseAddrs_localhost_not_rewritten :
    exceptOk (nmModel "localhost:9999") = false ∧
    shpModel "localhost:9999" = .ok ("localhost", "9999") ∧
    exceptOk (nmModel (rewriteHostPort ("localhost", "9999"))) = false ∧
    exceptOk (parseAddrs nmModel shpModel ["localhost:9999"]) = false :=
  ⟨rfl, rfl, rfl, rfl⟩

/-- The default of the serve -l flag (main.go 50). -/
def serveFlagsListenersDefault : String := "/ip4/0.0.0.0/tcp/4040,/ip4/0.0.0.0/udp/4141/quic"

/-- main.go 80: the listener flag value is split on commas. -/
def splitListeners (s : String) : List String :=
  (splitOnChar ',' s.toList).map String.mk

/-- C8: with the -l flag unset, the default listen-address list has exactly two
elements, in order an IPv4/TCP address and an IPv4/QUIC-over-UDP address, each
on all interfaces 0.0.0.0 with its fixed default port (4040 and 4141). -/
theorem serve_default_listeners :
    splitListeners serveFlagsListenersDefault =
      ["/ip4/0.0.0.0/tcp/4040", "/ip4/0.0.0.0/udp/4141/quic"] ∧
    (splitListeners serveFlagsListenersDefault).length = 2 ∧
    nmModel "/ip4/0.0.0.0/tcp/4040" = .ok [MASeg.ip4 0 0 0 0, MASeg.tcp 4040] ∧
    nmModel "/ip4/0.0.0.0/udp/4141/quic" = .ok [MASeg.ip4 0 0 0 0, MASeg.udp 4141, MASeg.quic] :=
  ⟨rfl, rfl, rfl, rfl⟩

end Rdvp
